import Mathlib

/-!
Verification of the Exploratorium sushi-chef scraper (`sushichef.py`).

The development shallowly embeds the string manipulation, the scraping
dispatch logic and the retry control flow of `sushichef.py` in Lean.
Python strings are modelled as Lean `String`s; the Python string
primitives used by the source (`split`, `rstrip`, `lstrip`, `replace`,
slicing, the substring operator `in`, `startswith`, `endswith`,
`lower`) are re-implemented structurally on `List Char` so that every
definition evaluates by kernel reduction.  External collaborators (the
`HTMLWriter` zipper, the video downloader, the network) are passed in
as explicit function parameters or environment records, and the
side effects the claims talk about (page fetches, video downloads,
logged errors) are returned as explicit data.
-/

namespace Exploratorium

/-! ## Python string primitives -/

/-- Python's substring operator: `strHas s pat` models `pat in s`. -/
def strHas (s pat : String) : Bool :=
  (List.range (s.length + 1)).any (fun i => pat.toList.isPrefixOf (s.toList.drop i))

/-- Python's `s.startswith(pre)`. -/
def pyStartsWith (s pre : String) : Bool :=
  pre.toList.isPrefixOf s.toList

/-- Python's `s.endswith(suf)`. -/
def pyEndsWith (s suf : String) : Bool :=
  suf.toList.isSuffixOf s.toList

/-- Python's `s.lower()` (the source only lowercases ASCII URLs). -/
def pyLower (s : String) : String :=
  String.mk (s.toList.map Char.toLower)

/-- Python's `s.split("/")[-1]`: the segment after the last slash. -/
def lastSegment (s : String) : String :=
  String.mk ((s.toList.reverse.takeWhile (fun c => c != '/')).reverse)

/-- Python's `s.split("?")[0]`: the prefix before the first question mark. -/
def takeBeforeQuery (s : String) : String :=
  String.mk (s.toList.takeWhile (fun c => c != '?'))

/-- Python's `s.split(".")[0]`: the prefix before the first dot. -/
def stemOf (s : String) : String :=
  String.mk (s.toList.takeWhile (fun c => c != '.'))

/-- Python's `s.lstrip("/")`: drop every leading slash. -/
def pyLstripSlash (s : String) : String :=
  String.mk (s.toList.dropWhile (fun c => c == '/'))

/-- Python's `s.rstrip("%20")`: drop trailing characters drawn from the
character set consisting of percent, the digit two and the digit zero
(Python's `rstrip` argument is a character set, not a suffix). -/
def pyRstripPct20 (s : String) : String :=
  String.mk ((s.toList.reverse.dropWhile (fun c => c == '%' || c == '2' || c == '0')).reverse)

/-- Python's `s[:30]`: the first thirty characters. -/
def pyTruncate30 (s : String) : String :=
  String.mk (s.toList.take 30)

/-- Fuelled worker for `pyReplace`.  The fuel bounds the number of scan
steps; `pyReplace` supplies one unit per character, which is enough
because every step consumes at least one character of the input. -/
def pyReplaceAux (pat rep : List Char) : Nat → List Char → List Char
  | _, [] => []
  | 0, l => l
  | fuel + 1, c :: rest =>
    if pat.isPrefixOf (c :: rest) then
      rep ++ pyReplaceAux pat rep fuel ((c :: rest).drop pat.length)
    else
      c :: pyReplaceAux pat rep fuel rest

/-- Python's `s.replace(pat, rep)` for a non-empty `pat`: replace every
non-overlapping occurrence, scanning left to right.  (The source only
calls it with the non-empty patterns `"gif"` and a page URL.) -/
def pyReplace (s pat rep : String) : String :=
  match pat.toList with
  | [] => s
  | p :: ps => String.mk (pyReplaceAux (p :: ps) rep.toList (s.toList.length + 1) s.toList)

/-! ## Run constants (`sushichef.py` lines 41-46) -/

/-- `BASE_URL.format(x)` for `BASE_URL = "https://www.exploratorium.edu/" ++ slot`. -/
def baseUrlFill (x : String) : String :=
  "https://www.exploratorium.edu/" ++ x

/-- `BRIGHTCOVE_URL.format(account=a, player=p, videoid=v)`. -/
def brightcoveUrl (account player videoid : String) : String :=
  "http://players.brightcove.net/" ++ account ++ "/" ++ player ++
    "_default/index.html?videoId=" ++ videoid

/-- `IMAGE_EXTENSIONS` (line 45). -/
def IMAGE_EXTENSIONS : List String := ["jpeg", "jpg", "gif", "png", "svg"]

/-! ## `format_url` (lines 129-137) -/

/-- `format_url`: return the url unchanged when it starts with `"http"`,
otherwise fill the base-URL template with the url stripped of leading
slashes. -/
def format_url (url : String) : String :=
  if pyStartsWith url "http" then url
  else baseUrlFill (pyLstripSlash url)

/-- Modelled from the spec: an absolute URL is one that carries an
explicit `http` or `https` scheme (the spec's Resource Resolver speaks
of absolute versus relative URLs; this is the spec-side notion used to
compare against the code's `startswith('http')` test). -/
def spec_is_absolute_url (u : String) : Bool :=
  pyStartsWith u "http://" || pyStartsWith u "https://"

/-! ## `get_thumbnail_url` (lines 151-165)

The gif branch reads the image from the network and re-encodes it with
PIL; the decoding itself is outside the embedding, but the fetched URL
and the returned local path are modelled exactly.  The function result
is the pair (returned value of `url or None`, list of URLs fetched).
`snackDir` stands for the runtime constant `SNACK_DIRECTORY` (the
directory of the script plus `/snacks`, joined with `os.path.sep`). -/

/-- `url.split("?")[0].rstrip("%20")`, the cleaning step of
`get_thumbnail_url`. -/
def cleanThumbUrl (u : String) : String :=
  pyRstripPct20 (takeBeforeQuery u)

/-- `get_thumbnail_url`: clean the url, convert a `.gif` target to a
local `.png` path (fetching the image on the way), and return
`url or None`.  The source reassigns the variable `url`; here the gif
branch carries the reassigned value inline in each component. -/
def get_thumbnail_url (snackDir url : String) : Option String × List String :=
  if pyEndsWith (cleanThumbUrl url) ".gif" then
    ((if (snackDir ++ "/" ++ pyReplace (lastSegment (cleanThumbUrl url)) "gif" "png") == ""
      then none
      else some (snackDir ++ "/" ++ pyReplace (lastSegment (cleanThumbUrl url)) "gif" "png")),
     [format_url (cleanThumbUrl url)])
  else
    ((if cleanThumbUrl url == "" then none else some (cleanThumbUrl url)), [])

/-- Helper for `spec_clean_thumb_url`: on a reversed character list,
repeatedly drop a leading reversed `"%20"` triple. -/
def stripRev20 : List Char → List Char
  | '0' :: '2' :: '%' :: rest => stripRev20 rest
  | l => l

/-- Modelled from the spec: stripping only genuine trailing
encoded-space artifacts, i.e. repeatedly removing a literal trailing
`"%20"` after dropping the query string.  Used to compare the spec's
description of the cleaning step with the code's `rstrip("%20")`. -/
def spec_clean_thumb_url (u : String) : String :=
  String.mk ((stripRev20 (takeBeforeQuery u).toList.reverse).reverse)

/-! ## `scrape_keywords` (lines 618-635)

The page fragment handed to `scrape_keywords` is abstracted to the list
of the texts of the anchors inside the keyword `div` of class `el`, in
document order, or `none` when `contents.find` locates no such `div`.
The source also replaces each anchor with an underlined `span` in the
document tree; that in-place edit does not affect the returned list and
is not modelled. -/

/-- `scrape_keywords`: collect `related.text[:30]` for every anchor of
the keyword section; the empty list when the section is absent. -/
def scrape_keywords (keywordSection : Option (List String)) : List String :=
  match keywordSection with
  | none => []
  | some anchorTexts => anchorTexts.map pyTruncate30

/-! ## `get_brightcove_mapping` (lines 168-202)

The parsed page is abstracted to the data the function reads: the
`video.bc5player` elements with their `data-account` / `data-player` /
`data-video-id` attributes, the text of the `div.attribution` element
(if any), and the `div#media-collection-banner-playlist` container (if
any) with its `div.playlist-item` children.  Document elements are
identified by `Nat` tags so that "the direct embed's element
reference" (`original_el`) and "the playlist container" (`append_to`)
are first-class values.  The Python dict `brightcove_mapping` is
modelled as an insertion-ordered association list with `dict.update`
semantics. -/

/-- A `<video class="bc5player">` element (direct embed). -/
structure DirectVideo where
  dataAccount : String
  dataPlayer : String
  dataVideoId : String
  ref : Nat
deriving DecidableEq

/-- A `<div class="playlist-item">` element of the playlist container. -/
structure PlaylistItem where
  dataId : String
  dataTitle : String
  dataPid : String
deriving DecidableEq

/-- The slice of a parsed page read by `get_brightcove_mapping`. -/
structure BCPage where
  directVideos : List DirectVideo
  attribution : Option String
  playlist : Option (Nat × List PlaylistItem)
deriving DecidableEq

/-- One value of the `brightcove_mapping` dict.  A direct-embed entry
sets `original_el` and `author`; a playlist entry sets `title` and
`append_to`; both set `url`.  Absent dict keys are `none` (the source
only reads them through `.get`, which treats absent and `None` alike). -/
structure BCEntry where
  original_el : Option Nat := none
  author : Option String := none
  title : Option String := none
  append_to : Option Nat := none
  url : String
deriving DecidableEq

/-- The `brightcove_mapping` dict: insertion-ordered key/value pairs. -/
abbrev BCMap := List (String × BCEntry)

/-- Python `d.update({k: v})`: replace the value in place when the key
is present, append the pair otherwise. -/
def dictUpdate (m : BCMap) (k : String) (v : BCEntry) : BCMap :=
  if m.any (fun p => p.1 == k) then
    m.map (fun p => if p.1 == k then (k, v) else p)
  else
    m ++ [(k, v)]

/-- Python `d[k]` / `d.get(k)` on the dict model. -/
def dictLookup (m : BCMap) (k : String) : Option BCEntry :=
  (m.find? (fun p => p.1 == k)).map (fun p => p.2)

/-- How many records of the dict model carry the key `k`. -/
def countKey (m : BCMap) (k : String) : Nat :=
  (m.filter (fun p => p.1 == k)).length

/-- The entry built for a direct embed (lines 182-188): the element
itself, the page's attribution text, and the brightcove player URL
filled with the element's own account, player and video id. -/
def directEntry (page : BCPage) (v : DirectVideo) : BCEntry :=
  { original_el := some v.ref,
    author := page.attribution,
    url := brightcoveUrl v.dataAccount v.dataPlayer v.dataVideoId }

/-- The entry built for a playlist item (lines 194-200): its title, the
playlist container to append to, and the player URL filled with the
shared account, the item's `data-pid` and `data-id`. -/
def playlistEntry (account : String) (plRef : Nat) (it : PlaylistItem) : BCEntry :=
  { title := some it.dataTitle,
    append_to := some plRef,
    url := brightcoveUrl account it.dataPid it.dataId }

/-- The value the loop variable `account` holds after the direct-video
loop: the `data-account` of the last `video.bc5player` element, or the
initial `""` when the page has none. -/
def scrapedAccount (page : BCPage) : String :=
  page.directVideos.foldl (fun _ v => v.dataAccount) ""

/-- `get_brightcove_mapping`: fold the direct embeds into the dict,
then, when `get_playlist` is set and a playlist container exists, fold
the playlist items on top of it. -/
def get_brightcove_mapping (page : BCPage) (get_playlist : Bool) : BCMap :=
  let direct :=
    page.directVideos.foldl
      (fun m v => dictUpdate m v.dataVideoId (directEntry page v)) []
  match page.playlist with
  | some (plRef, items) =>
      if get_playlist then
        items.foldl
          (fun m it => dictUpdate m it.dataId (playlistEntry (scrapedAccount page) plRef it))
          direct
      else direct
  | none => direct

/-! ## `generate_download_page` (lines 502-528)

The zipper collaborator is abstracted to the two calls the function
makes: `write_url` (fetch a URL into the zip under a filename,
returning the in-zip path) and `write_contents` (store the generated
landing page under a filename, returning its in-zip path; the landing
page's HTML is summarised by the render tag it embeds).  The result is
the returned path (the in-zip landing page path, or `""` for an
unrecognized file type), the landing page's render tag, and the list
of errors logged. -/

/-- The element placed on a generated landing page. -/
inductive RenderTag where
  | embed : String → RenderTag
  | img : String → RenderTag
deriving DecidableEq

/-- The zipper collaborator (`ricecooker`'s `HTMLWriter`), abstracted
to the calls the link-rewriting code makes. -/
structure Zipper where
  contains : String → Bool
  write_url : String → String → String → String
  write_contents : String → String

/-- `generate_download_page`: strip the query string, branch on the
target's extension (`pdf` → `<embed>`, recognized image → `<img>`,
anything else → log an error and return `""`), write the asset and the
landing page into the zip, and return the landing page's path. -/
def generate_download_page (z : Zipper) (url : String) :
    String × Option RenderTag × List String :=
  let download_url := takeBeforeQuery url
  let filename := lastSegment download_url
  if pyEndsWith download_url "pdf" then
    (z.write_contents (stemOf filename ++ ".html"),
     some (RenderTag.embed (z.write_url (format_url download_url) filename "")), [])
  else if IMAGE_EXTENSIONS.any (fun e => pyEndsWith (pyLower download_url) e) then
    (z.write_contents (stemOf filename ++ ".html"),
     some (RenderTag.img (z.write_url (format_url download_url) filename "")), [])
  else
    ("", none, ["Unknown file type found at " ++ download_url])

/-! ## Link rewriting inside `scrape_snack_page` (lines 442-483)

The loop `for paragraph in main_contents.find_all('p') + ...find_all('li')`
walks every anchor of a paragraph or list item and dispatches on the
anchor's href through a chain of `elif` branches.  A paragraph is
modelled as a list of inline nodes; an anchor carries its href, its
visible text, and the `src` of a wrapped `<img>` when it has one
(`link.find('img')`).  `paragraph.append(...)` during the loop places
new nodes after the paragraph's existing content, so the rewritten
paragraph is the concatenation of the per-node replacements followed
by the per-node appends, in processing order.  The videos scraped from
a linked page (branch `"exploratorium.edu" in href`, lines 464-469)
are summarised by an oracle `videosOn` giving the generated `<video>`
sources for that href. -/

/-- An inline node of a paragraph or list item. -/
inductive Inline where
  | text : String → Inline
  | bold : String → Inline
  | anchor : String → String → Option String → Inline
  | img : String → Option String → Inline
  | video : String → Inline
deriving DecidableEq

/-- The dispatch of lines 444-483 for one anchor
(`href`, `text`, wrapped image source).  The result is
(replacement nodes, nodes appended to the paragraph, errors logged). -/
def rewriteAnchor (z : Zipper) (videosOn : String → List String)
    (href text : String) (imgSrc : Option String) :
    List Inline × List Inline × List String :=
  if z.contains href then
    ([Inline.anchor href text imgSrc], [], [])
  else if strHas href "exploratorium.edu/snacks/" then
    ([Inline.bold text], [], [])
  else
    match imgSrc with
    | some src => ([Inline.img src none], [], [])
    | none =>
      if strHas href "/sites/default/files/" then
        let r := generate_download_page z href
        ([Inline.anchor r.1 text none], [], r.2.2)
      else if strHas href "exploratorium.edu" then
        ([Inline.text (pyReplace text href "")], (videosOn href).map Inline.video, [])
      else if IMAGE_EXTENSIONS.any (fun e => pyEndsWith (pyLower href) e) then
        ([Inline.text text],
         [Inline.img (z.write_url href (lastSegment href) "images") (some "max-width: 100%;")],
         [])
      else
        if !strHas text href && !strHas href text then
          ([Inline.text (text ++ " (" ++ href ++ ") ")], [], [])
        else
          ([Inline.text text], [], [])

/-- Rewrite one inline node: anchors go through `rewriteAnchor`, every
other node is left in place. -/
def rewriteInline (z : Zipper) (videosOn : String → List String) :
    Inline → List Inline × List Inline × List String
  | Inline.anchor href text imgSrc => rewriteAnchor z videosOn href text imgSrc
  | i => ([i], [], [])

/-- Process every node of a paragraph, accumulating replacements,
appends and logs separately. -/
def rewriteNodes (z : Zipper) (videosOn : String → List String) :
    List Inline → List Inline × List Inline × List String
  | [] => ([], [], [])
  | i :: rest =>
      let r := rewriteInline z videosOn i
      let rp := rewriteNodes z videosOn rest
      (r.1 ++ rp.1, r.2.1 ++ rp.2.1, r.2.2 ++ rp.2.2)

/-- The link-rewriting pass over one paragraph: the final node list
(replaced content followed by the appended tags) and the errors
logged. -/
def rewriteParagraph (z : Zipper) (videosOn : String → List String)
    (p : List Inline) : List Inline × List String :=
  let r := rewriteNodes z videosOn p
  (r.1 ++ r.2.1, r.2.2)

/-- Whether an inline node is an anchor. -/
def isAnchor : Inline → Bool
  | Inline.anchor _ _ _ => true
  | _ => false

/-- A node list with no anchors. -/
def anchorFree (p : List Inline) : Bool :=
  p.all (fun i => !isAnchor i)

/-- Whether a node list still holds a hyperlink with the given href. -/
def hasAnchorTo (p : List Inline) (href : String) : Bool :=
  p.any (fun i =>
    match i with
    | Inline.anchor h _ _ => h == href
    | _ => false)

/-! ## Stylesheet scraping inside `scrape_snack_page` (lines 392-400)

For every `<link rel="stylesheet">` of the fetched page the source
skips the sheet when its href lacks the substring
`"exploratorium.edu"`; otherwise it fetches and rewrites the sheet via
`scrape_style`, stores the rewritten text in the zip under `css/`, and
appends the (href-rewritten) link element to the output document's
head.  `scrape_style` and `zipper.write_contents` are abstracted to
function parameters; the result is (the hrefs fetched through
`scrape_style`, the heads appended, i.e. the in-zip hrefs of the link
elements added to `write_contents.head`). -/

/-- The stylesheet loop: fold over the stylesheet hrefs of the page. -/
def scrape_stylesheets (rewriteStyle : String → String)
    (writeCss : String → String → String) (links : List String) :
    List String × List String :=
  links.foldl
    (fun acc href =>
      if strHas href "exploratorium.edu" = false then acc
      else (acc.1 ++ [href], acc.2 ++ [writeCss (lastSegment href) (rewriteStyle href)]))
    ([], [])

/-- Modelled from the spec: a stylesheet link is on the site itself
when its href is site-relative (no scheme) or absolute on the site's
own host (the spec's Resource Resolver joins site-relative hrefs with
the site base URL). -/
def spec_on_site (href : String) : Bool :=
  !pyStartsWith href "http" || pyStartsWith href "https://www.exploratorium.edu/"

/-! ## The retry skeleton of `scrape_snack_page` (lines 365-499) and
its caller `scrape_snack_subject` (lines 339-344)

The function body is modelled at the granularity of its observable
steps: `read(slug)` (one page fetch per attempt, which may raise), the
keyword scrape, the `os.path.isfile(write_to_path)` short-circuit, and
the bundle construction (which may raise, and whose video downloads
are recorded).  The environment fixes the behaviour of the outside
world for the run; effects are accumulated across retries.  The error
message logged on exhaustion abstracts the interpolated exception text
to the slug (`"Could not scrape {slug} ({e})"`). -/

/-- The data `scrape_snack_page` reads from a successfully fetched
activity page before touching the zip: the anchor texts of the two
keyword sections (`none` when the section `div` is absent). -/
structure SnackPage where
  subjectSection : Option (List String)
  tagSection : Option (List String)
deriving DecidableEq

/-- The outside world of one `scrape_snack_page` run.  `page = none`
models `read(slug)` raising on every attempt; `buildResult = none`
models the bundle construction raising on every attempt, and
`buildResult = some ds` a construction that succeeds after downloading
the videos `ds`. -/
structure ScrapeEnv where
  snackDir : String
  page : Option SnackPage
  bundleExists : Bool
  buildResult : Option (List String)
deriving DecidableEq

/-- The observable side effects of a run. -/
structure Effects where
  pageFetches : Nat
  videoDownloads : List String
  errors : List String
deriving DecidableEq

/-- `write_to_path` (line 375): `SNACK_DIRECTORY/slug.split('/')[-1].zip`. -/
def snackZipPath (env : ScrapeEnv) (slug : String) : String :=
  env.snackDir ++ "/" ++ lastSegment slug ++ ".zip"

/-- The keyword tags gathered from a fetched page (lines 382-383). -/
def snackTags (p : SnackPage) : List String :=
  scrape_keywords p.subjectSection ++ scrape_keywords p.tagSection

/-- `scrape_snack_page env slug attempts`: the effects performed and
the returned pair `(write_to_path, tags)`.  An exception with
`attempts > 0` restarts the whole body with `attempts - 1`; an
exception with `attempts = 0` logs the error and falls through to
`return write_to_path, tags`. -/
def scrape_snack_page (env : ScrapeEnv) (slug : String) :
    Nat → Effects × String × List String
  | Nat.succ n =>
      match env.page with
      | none =>
          let r := scrape_snack_page env slug n
          ({ pageFetches := r.1.pageFetches + 1,
             videoDownloads := r.1.videoDownloads,
             errors := r.1.errors }, r.2)
      | some p =>
          if env.bundleExists then
            ({ pageFetches := 1, videoDownloads := [], errors := [] },
             snackZipPath env slug, snackTags p)
          else
            match env.buildResult with
            | some ds =>
                ({ pageFetches := 1, videoDownloads := ds, errors := [] },
                 snackZipPath env slug, snackTags p)
            | none =>
                let r := scrape_snack_page env slug n
                ({ pageFetches := r.1.pageFetches + 1,
                   videoDownloads := r.1.videoDownloads,
                   errors := r.1.errors }, r.2)
  | 0 =>
      match env.page with
      | none =>
          ({ pageFetches := 1, videoDownloads := [],
             errors := ["Could not scrape " ++ slug] },
           snackZipPath env slug, [])
      | some p =>
          if env.bundleExists then
            ({ pageFetches := 1, videoDownloads := [], errors := [] },
             snackZipPath env slug, snackTags p)
          else
            match env.buildResult with
            | some ds =>
                ({ pageFetches := 1, videoDownloads := ds, errors := [] },
                 snackZipPath env slug, snackTags p)
            | none =>
                ({ pageFetches := 1, videoDownloads := [],
                   errors := ["Could not scrape " ++ slug] },
                 snackZipPath env slug, snackTags p)

/-- The caller's guard (lines 342-344): `scrape_snack_subject` skips
the leaf, creating no content node, exactly when the returned
`write_to_path` is falsy, i.e. the empty string. -/
def snack_subject_skips (write_to_path : String) : Bool :=
  write_to_path == ""

/-! ## Concrete collaborators used by witnesses and counterexamples -/

/-- A zipper whose archive contains nothing yet and whose write calls
return simple in-zip paths. -/
def zNever : Zipper :=
  ⟨fun _ => false, fun _ fn d => d ++ "/" ++ fn, fun fn => fn⟩

/-- A video oracle for pages without embedded videos. -/
def noVideos : String → List String := fun _ => []

/-! ## Dictionary lemmas for the `brightcove_mapping` model -/

/-- Every key occurs at most once in the dict model. -/
def WfDict (m : BCMap) : Prop := ∀ k, countKey m k ≤ 1

theorem wfDict_nil : WfDict [] := by
  intro k; simp [countKey]

theorem find_map_update (m : BCMap) (k : String) (v : BCEntry)
    (h : m.any (fun q => q.1 == k) = true) :
    (m.map (fun q => if q.1 == k then (k, v) else q)).find? (fun q => q.1 == k)
      = some (k, v) := by
  induction m with
  | nil => simp at h
  | cons q t ih =>
    rw [List.map_cons]
    by_cases hq : (q.1 == k) = true
    · rw [if_pos hq]
      simp only [List.find?]
      simp
    · rw [Bool.not_eq_true] at hq
      rw [if_neg (by simp [hq])]
      simp only [List.find?, hq]
      apply ih
      simpa [List.any_cons, hq] using h

theorem find_append_update (m : BCMap) (k : String) (v : BCEntry)
    (h : m.any (fun q => q.1 == k) = false) :
    (m ++ [(k, v)]).find? (fun q => q.1 == k) = some (k, v) := by
  have hnone : m.find? (fun q => q.1 == k) = none := by
    rw [List.find?_eq_none]
    intro x hx
    have := List.any_eq_false.mp h x hx
    simpa using this
  rw [List.find?_append, hnone]
  simp only [List.find?]
  simp

theorem dictLookup_update_self (m : BCMap) (k : String) (v : BCEntry) :
    dictLookup (dictUpdate m k v) k = some v := by
  unfold dictLookup dictUpdate
  cases hb : m.any (fun q => q.1 == k) with
  | true =>
      rw [if_pos rfl, find_map_update m k v hb]
      rfl
  | false =>
      rw [if_neg (by simp), find_append_update m k v hb]
      rfl

theorem find_map_update_other (m : BCMap) (k : String) (v : BCEntry) (i : String)
    (h : (k == i) = false) :
    (m.map (fun q => if q.1 == k then (k, v) else q)).find? (fun q => q.1 == i)
      = m.find? (fun q => q.1 == i) := by
  induction m with
  | nil => rfl
  | cons q t ih =>
    rw [List.map_cons]
    by_cases hq : (q.1 == k) = true
    · have hqk : q.1 = k := by simpa using hq
      have hqi : (q.1 == i) = false := by rw [hqk]; exact h
      rw [if_pos hq]
      simp only [List.find?, h, hqi]
      exact ih
    · rw [Bool.not_eq_true] at hq
      rw [if_neg (by simp [hq])]
      by_cases hqi : (q.1 == i) = true
      · simp only [List.find?, hqi]
      · rw [Bool.not_eq_true] at hqi
        simp only [List.find?, hqi]
        exact ih

theorem dictLookup_update_other (m : BCMap) (k : String) (v : BCEntry) (i : String)
    (h : (k == i) = false) :
    dictLookup (dictUpdate m k v) i = dictLookup m i := by
  unfold dictLookup dictUpdate
  by_cases ha : m.any (fun q => q.1 == k) = true
  · rw [if_pos ha, find_map_update_other m k v i h]
  · rw [if_neg ha, List.find?_append]
    have h1 : List.find? (fun q => q.1 == i) [(k, v)] = none := by
      simp only [List.find?, h]
    rw [h1]
    cases m.find? (fun q => q.1 == i) <;> rfl

theorem countKey_map_update (m : BCMap) (k : String) (v : BCEntry) (i : String) :
    countKey (m.map (fun q => if q.1 == k then (k, v) else q)) i = countKey m i := by
  unfold countKey
  induction m with
  | nil => rfl
  | cons q t ih =>
    rw [List.map_cons]
    by_cases hq : (q.1 == k) = true
    · have hqk : q.1 = k := by simpa using hq
      have hki : ((k, v).1 == i) = (q.1 == i) := by
        show (k == i) = _
        rw [hqk]
      rw [if_pos hq, List.filter_cons, List.filter_cons, hki]
      cases hqi : (q.1 == i) <;> simpa using ih
    · rw [Bool.not_eq_true] at hq
      rw [if_neg (by simp [hq]), List.filter_cons, List.filter_cons]
      cases hqi : (q.1 == i) <;> simpa using ih

theorem countKey_any_false (m : BCMap) (k : String)
    (h : m.any (fun q => q.1 == k) = false) : countKey m k = 0 := by
  unfold countKey
  have : m.filter (fun q => q.1 == k) = [] := by
    rw [List.filter_eq_nil_iff]
    intro x hx
    have := List.any_eq_false.mp h x hx
    simpa using this
  rw [this]
  rfl

theorem countKey_any_true (m : BCMap) (k : String)
    (h : m.any (fun q => q.1 == k) = true) : 1 ≤ countKey m k := by
  unfold countKey
  obtain ⟨x, hx, hpx⟩ := List.any_eq_true.mp h
  have hmem : x ∈ m.filter (fun q => q.1 == k) := List.mem_filter.mpr ⟨hx, hpx⟩
  have := List.ne_nil_of_mem hmem
  have hlen := List.length_pos.mpr this
  omega

theorem countKey_update_self (m : BCMap) (k : String) (v : BCEntry)
    (hwf : countKey m k ≤ 1) : countKey (dictUpdate m k v) k = 1 := by
  unfold dictUpdate
  cases hb : m.any (fun q => q.1 == k) with
  | true =>
      rw [if_pos rfl, countKey_map_update]
      have := countKey_any_true m k hb
      omega
  | false =>
      rw [if_neg (by simp)]
      unfold countKey
      rw [List.filter_append]
      have h0 : countKey m k = 0 := countKey_any_false m k hb
      unfold countKey at h0
      simp only [List.length_append, h0]
      simp [List.filter_cons]

theorem countKey_update_other (m : BCMap) (k : String) (v : BCEntry) (i : String)
    (h : (k == i) = false) :
    countKey (dictUpdate m k v) i = countKey m i := by
  unfold dictUpdate
  cases hb : m.any (fun q => q.1 == k) with
  | true => rw [if_pos rfl, countKey_map_update]
  | false =>
      rw [if_neg (by simp)]
      unfold countKey
      rw [List.filter_append]
      simp [List.filter_cons, h]

theorem wfDict_update (m : BCMap) (k : String) (v : BCEntry) (h : WfDict m) :
    WfDict (dictUpdate m k v) := by
  intro i
  by_cases hk : (k == i) = true
  · have : k = i := by simpa using hk
    subst this
    rw [countKey_update_self m k v (h k)]
  · rw [Bool.not_eq_true] at hk
    rw [countKey_update_other m k v i hk]
    exact h i

theorem wfDict_foldl {α : Type} (key : α → String) (val : α → BCEntry)
    (l : List α) (m : BCMap) (h : WfDict m) :
    WfDict (l.foldl (fun acc a => dictUpdate acc (key a) (val a)) m) := by
  induction l generalizing m with
  | nil => exact h
  | cons a t ih =>
      rw [List.foldl_cons]
      exact ih _ (wfDict_update _ _ _ h)

theorem dictLookup_foldl_other {α : Type} (key : α → String) (val : α → BCEntry)
    (l : List α) (m : BCMap) (i : String)
    (h : ∀ a ∈ l, (key a == i) = false) :
    dictLookup (l.foldl (fun acc a => dictUpdate acc (key a) (val a)) m) i
      = dictLookup m i := by
  induction l generalizing m with
  | nil => rfl
  | cons a t ih =>
      rw [List.foldl_cons, ih _ (fun x hx => h x (List.mem_cons_of_mem a hx)),
        dictLookup_update_other _ _ _ _ (h a (List.mem_cons_self a t))]

theorem dictLookup_foldl_unique {α : Type} (key : α → String) (val : α → BCEntry)
    (l : List α) (m : BCMap) (i : String) (a0 : α)
    (h : l.filter (fun a => key a == i) = [a0]) :
    dictLookup (l.foldl (fun acc a => dictUpdate acc (key a) (val a)) m) i
      = some (val a0) := by
  induction l generalizing m with
  | nil => simp at h
  | cons a t ih =>
      by_cases ha : (key a == i) = true
      · have hsplit : a :: t.filter (fun a => key a == i) = [a0] := by
          simpa [List.filter_cons, ha] using h
        injection hsplit with ha0 ht
        have hnone : ∀ x ∈ t, (key x == i) = false := by
          intro x hx
          have := List.filter_eq_nil_iff.mp ht x hx
          simpa using this
        rw [List.foldl_cons, dictLookup_foldl_other key val t _ i hnone]
        have hkey : key a = i := by simpa using ha
        rw [← ha0, ← hkey]
        exact dictLookup_update_self m (key a) (val a)
      · rw [Bool.not_eq_true] at ha
        have ht : t.filter (fun a => key a == i) = [a0] := by
          simpa [List.filter_cons, ha] using h
        rw [List.foldl_cons]
        exact ih _ ht

theorem dictLookup_some_countKey (m : BCMap) (i : String) (v : BCEntry)
    (h : dictLookup m i = some v) : 1 ≤ countKey m i := by
  unfold dictLookup at h
  cases hf : m.find? (fun q => q.1 == i) with
  | none => rw [hf] at h; simp at h
  | some r =>
      have hmem : r ∈ m := List.mem_of_find?_eq_some hf
      have hpr := List.find?_some hf
      have : r ∈ m.filter (fun q => q.1 == i) := List.mem_filter.mpr ⟨hmem, hpr⟩
      unfold countKey
      have hne := List.ne_nil_of_mem this
      have := List.length_pos.mpr hne
      omega

/-! ## Paragraph-rewriting lemmas -/

theorem rewriteInline_not_anchor (z : Zipper) (videosOn : String → List String)
    (i : Inline) (h : isAnchor i = false) :
    rewriteInline z videosOn i = ([i], [], []) := by
  cases i with
  | anchor href text imgSrc => simp [isAnchor] at h
  | text s => rfl
  | bold s => rfl
  | img s st => rfl
  | video s => rfl

theorem rewriteNodes_anchorFree (z : Zipper) (videosOn : String → List String)
    (p : List Inline) (hp : anchorFree p = true) :
    rewriteNodes z videosOn p = (p, [], []) := by
  induction p with
  | nil => rfl
  | cons i t ih =>
      simp only [anchorFree, List.all_cons, Bool.and_eq_true, Bool.not_eq_true'] at hp
      have hi : isAnchor i = false := hp.1
      have ht : anchorFree t = true := hp.2
      simp only [rewriteNodes, rewriteInline_not_anchor z videosOn i hi, ih ht]
      simp

theorem rewriteNodes_append (z : Zipper) (videosOn : String → List String)
    (p q : List Inline) :
    rewriteNodes z videosOn (p ++ q)
      = ((rewriteNodes z videosOn p).1 ++ (rewriteNodes z videosOn q).1,
         (rewriteNodes z videosOn p).2.1 ++ (rewriteNodes z videosOn q).2.1,
         (rewriteNodes z videosOn p).2.2 ++ (rewriteNodes z videosOn q).2.2) := by
  induction p with
  | nil => simp [rewriteNodes]
  | cons i t ih =>
      simp [rewriteNodes, ih, List.append_assoc]

theorem rewriteParagraph_single (z : Zipper) (videosOn : String → List String)
    (pre post : List Inline) (href text : String) (imgSrc : Option String)
    (hpre : anchorFree pre = true) (hpost : anchorFree post = true) :
    rewriteParagraph z videosOn (pre ++ [Inline.anchor href text imgSrc] ++ post)
      = (pre ++ (rewriteAnchor z videosOn href text imgSrc).1 ++ post
           ++ (rewriteAnchor z videosOn href text imgSrc).2.1,
         (rewriteAnchor z videosOn href text imgSrc).2.2) := by
  unfold rewriteParagraph
  rw [rewriteNodes_append, rewriteNodes_append,
    rewriteNodes_anchorFree z videosOn pre hpre,
    rewriteNodes_anchorFree z videosOn post hpost]
  simp [rewriteNodes, rewriteInline, List.append_assoc]

theorem anchorFree_append (p q : List Inline) :
    anchorFree (p ++ q) = (anchorFree p && anchorFree q) := by
  simp [anchorFree, List.all_append]

theorem hasAnchorTo_of_anchorFree (p : List Inline) (href : String)
    (h : anchorFree p = true) : hasAnchorTo p href = false := by
  induction p with
  | nil => rfl
  | cons i t ih =>
      simp only [anchorFree, List.all_cons, Bool.and_eq_true, Bool.not_eq_true'] at h
      have ht := ih h.2
      cases i with
      | anchor a b c => simp [isAnchor] at h
      | text s => simpa [hasAnchorTo, List.any_cons] using ht
      | bold s => simpa [hasAnchorTo, List.any_cons] using ht
      | img s st => simpa [hasAnchorTo, List.any_cons] using ht
      | video s => simpa [hasAnchorTo, List.any_cons] using ht

/-! ## Stylesheet fold lemma -/

theorem scrape_stylesheets_go (rewriteStyle : String → String)
    (writeCss : String → String → String) (links : List String)
    (acc : List String × List String) :
    links.foldl
      (fun acc href =>
        if strHas href "exploratorium.edu" = false then acc
        else (acc.1 ++ [href], acc.2 ++ [writeCss (lastSegment href) (rewriteStyle href)]))
      acc
    = (acc.1 ++ links.filter (fun h => strHas h "exploratorium.edu"),
       acc.2 ++ (links.filter (fun h => strHas h "exploratorium.edu")).map
         (fun h => writeCss (lastSegment h) (rewriteStyle h))) := by
  induction links generalizing acc with
  | nil => simp
  | cons l t ih =>
      rw [List.foldl_cons]
      cases hl : strHas l "exploratorium.edu" with
      | false =>
          rw [if_pos rfl, ih, List.filter_cons, hl]
          simp
      | true =>
          rw [if_neg (by simp), ih, List.filter_cons, hl]
          simp [List.append_assoc]

/-! ## Claim C7: `format_url` -/

/-- Claim C7 (corrected): `format_url` returns a URL unchanged exactly
when it starts with the string `"http"`; every other URL — whether
site-relative or not — is joined with the base template after leading
slashes are stripped.  In particular every absolute `http(s)` URL is
returned unchanged, but the boundary of the claim is the literal
`"http"` prefix test, not genuine absoluteness. -/
theorem claim7_format_url (u : String) :
    (pyStartsWith u "http" = true → format_url u = u) ∧
    (pyStartsWith u "http" = false →
      format_url u = baseUrlFill (pyLstripSlash u)) ∧
    (spec_is_absolute_url u = true → format_url u = u) := by
  refine ⟨fun h => ?_, fun h => ?_, fun h => ?_⟩
  · simp [format_url, h]
  · simp [format_url, h]
  · have hpre : pyStartsWith u "http" = true := by
      unfold spec_is_absolute_url at h
      rcases Bool.or_eq_true_iff.mp h with h1 | h1
      · unfold pyStartsWith at h1 ⊢
        have h2 : "http".toList <+: "http://".toList := by decide
        exact List.isPrefixOf_iff_prefix.mpr
          (List.IsPrefix.trans h2 (List.isPrefixOf_iff_prefix.mp h1))
      · unfold pyStartsWith at h1 ⊢
        have h2 : "http".toList <+: "https://".toList := by decide
        exact List.isPrefixOf_iff_prefix.mpr
          (List.IsPrefix.trans h2 (List.isPrefixOf_iff_prefix.mp h1))
    simp [format_url, hpre]

/-- Witness for C7: a concrete absolute URL is returned unchanged and a
concrete relative URL is joined with the base template. -/
theorem claim7_format_url_witness :
    format_url "http://a/b" = "http://a/b" ∧
    format_url "//snacks/foo" = baseUrlFill (pyLstripSlash "//snacks/foo") :=
  ⟨(claim7_format_url "http://a/b").1 (by decide),
   (claim7_format_url "//snacks/foo").2.1 (by decide)⟩

/-- Counterexample for C7 as stated: `"httpx.html"` is a relative URL
(it has no scheme), yet `format_url` returns it unchanged instead of
applying the base-URL template. -/
theorem claim7_format_url_counterexample :
    spec_is_absolute_url "httpx.html" = false ∧
    format_url "httpx.html" = "httpx.html" ∧
    format_url "httpx.html" ≠ baseUrlFill (pyLstripSlash "httpx.html") := by
  exact ⟨by decide, by decide, by decide⟩

/-! ## Claim C8: `get_thumbnail_url` -/

/-- Claim C8 (corrected): `get_thumbnail_url` strips the query string
and then strips trailing characters drawn from the set percent/two/zero
(the code's `rstrip("%20")`, which removes more than literal trailing
`"%20"` artifacts); when the cleaned URL ends in `.gif` it fetches the
image and returns the local converted path (filename with `gif`
replaced by `png`); otherwise it returns the cleaned URL when that is
nonempty and `None` when cleaning left the empty string. -/
theorem claim8_get_thumbnail_url (snackDir url : String) :
    (pyEndsWith (cleanThumbUrl url) ".gif" = true →
      get_thumbnail_url snackDir url =
        (some (snackDir ++ "/" ++ pyReplace (lastSegment (cleanThumbUrl url)) "gif" "png"),
         [format_url (cleanThumbUrl url)])) ∧
    (pyEndsWith (cleanThumbUrl url) ".gif" = false → cleanThumbUrl url ≠ "" →
      get_thumbnail_url snackDir url = (some (cleanThumbUrl url), [])) ∧
    (pyEndsWith (cleanThumbUrl url) ".gif" = false → cleanThumbUrl url = "" →
      get_thumbnail_url snackDir url = (none, [])) := by
  refine ⟨fun h => ?_, fun h hne => ?_, fun h he => ?_⟩
  · have hne : (snackDir ++ "/" ++ pyReplace (lastSegment (cleanThumbUrl url)) "gif" "png") ≠ "" := by
      intro hcontr
      have hlen := congrArg String.length hcontr
      simp [String.length_append] at hlen
      exact absurd hlen.1.2 (by decide)
    unfold get_thumbnail_url
    rw [if_pos h, if_neg (by simpa using hne)]
  · unfold get_thumbnail_url
    rw [if_neg (by simp [h]), if_neg (by simpa using hne)]
  · unfold get_thumbnail_url
    rw [if_neg (by simp [h]), if_pos (by simpa using he)]

/-- Witness for C8: a gif thumbnail URL with a query string is
converted to a local png path (fetching the gif), and a png thumbnail
URL is returned cleaned. -/
theorem claim8_get_thumbnail_url_witness :
    get_thumbnail_url "snacks" "http://x/sub/anim.gif?itok=9" =
      (some ("snacks" ++ "/" ++
         pyReplace (lastSegment (cleanThumbUrl "http://x/sub/anim.gif?itok=9")) "gif" "png"),
       [format_url (cleanThumbUrl "http://x/sub/anim.gif?itok=9")]) ∧
    get_thumbnail_url "snacks" "http://x/a.png" =
      (some (cleanThumbUrl "http://x/a.png"), []) :=
  ⟨(claim8_get_thumbnail_url "snacks" "http://x/sub/anim.gif?itok=9").1 (by decide),
   (claim8_get_thumbnail_url "snacks" "http://x/a.png").2.1 (by decide) (by decide)⟩

/-- Counterexample for C8 as stated: on `"http://x/a.jpg320"` there is
no trailing encoded-space artifact to strip (the spec-side cleaning is
the identity), yet the code's `rstrip("%20")` eats the trailing `"20"`
and the function returns `"http://x/a.jpg3"` rather than the cleaned
URL. -/
theorem claim8_get_thumbnail_url_counterexample :
    spec_clean_thumb_url "http://x/a.jpg320" = "http://x/a.jpg320" ∧
    get_thumbnail_url "snacks" "http://x/a.jpg320" = (some "http://x/a.jpg3", []) ∧
    (get_thumbnail_url "snacks" "http://x/a.jpg320").1
      ≠ some (spec_clean_thumb_url "http://x/a.jpg320") := by
  exact ⟨by decide, by decide, by decide⟩

/-! ## Claim C10: `scrape_keywords` -/

/-- Claim C10 (confirmed): `scrape_keywords` returns, in page order,
the first thirty characters of the text of each keyword anchor, so
every returned tag has length at most thirty; an absent keyword
section yields the empty list. -/
theorem claim10_scrape_keywords (sec : Option (List String)) :
    (sec = none → scrape_keywords sec = []) ∧
    (∀ anchorTexts, sec = some anchorTexts →
      scrape_keywords sec = anchorTexts.map pyTruncate30) ∧
    (∀ s ∈ scrape_keywords sec,
      s.length ≤ 30 ∧ ∃ t ∈ sec.getD [], s = pyTruncate30 t) := by
  refine ⟨fun h => ?_, fun texts h => ?_, fun s hs => ?_⟩
  · rw [h]; rfl
  · rw [h]; rfl
  · cases sec with
    | none => simp [scrape_keywords] at hs
    | some texts =>
        simp only [scrape_keywords] at hs
        obtain ⟨t, ht, rfl⟩ := List.mem_map.mp hs
        refine ⟨?_, t, ht, rfl⟩
        show (t.toList.take 30).length ≤ 30
        rw [List.length_take]
        omega

/-- Witness for C10: a concrete keyword section with one long and one
short anchor text. -/
theorem claim10_scrape_keywords_witness :
    scrape_keywords (some ["a-very-long-keyword-string-beyond-thirty-chars", "b"])
      = ["a-very-long-keyword-string-beyond-thirty-chars", "b"].map pyTruncate30 :=
  (claim10_scrape_keywords (some ["a-very-long-keyword-string-beyond-thirty-chars", "b"])).2.1
    ["a-very-long-keyword-string-beyond-thirty-chars", "b"] rfl

/-! ## Claim C9: stylesheet scraping -/

/-- Claim C9 (corrected): the stylesheet loop fetches, rewrites and
appends to the output head exactly those stylesheet links whose href
contains the substring `"exploratorium.edu"`, in page order, and every
other stylesheet link is skipped entirely.  The code's boundary is
this substring test, not genuine on-site-ness: a site-relative
stylesheet href is skipped. -/
theorem claim9_scrape_stylesheets (rewriteStyle : String → String)
    (writeCss : String → String → String) (links : List String) :
    scrape_stylesheets rewriteStyle writeCss links
      = (links.filter (fun h => strHas h "exploratorium.edu"),
         (links.filter (fun h => strHas h "exploratorium.edu")).map
           (fun h => writeCss (lastSegment h) (rewriteStyle h))) := by
  unfold scrape_stylesheets
  rw [scrape_stylesheets_go]
  simp

/-- Counterexample for C9 as stated: `"/sites/all/themes/main.css"` is
a site-relative — hence on-site — stylesheet href, yet the loop never
fetches it and never appends it to the head. -/
theorem claim9_scrape_stylesheets_counterexample :
    spec_on_site "/sites/all/themes/main.css" = true ∧
    scrape_stylesheets (fun s => s) (fun fn _ => "css/" ++ fn)
      ["/sites/all/themes/main.css"] = ([], []) := by
  exact ⟨by decide, by decide⟩

/-! ## Claim C2: `get_brightcove_mapping` de-duplication -/

/-- Claim C2 (corrected): when a page carries a direct video embed and
a playlist item with the same video id and playlists are requested,
`get_brightcove_mapping` returns exactly one record for that id — but
it is the playlist entry (title, playlist container, playlist URL
built from the shared account and the item's `data-pid`) that
survives, because the playlist loop's `dict.update` runs after the
direct-embed loop; the direct embed's attribution and element
reference are discarded. -/
theorem claim2_get_brightcove_mapping (page : BCPage) (plRef : Nat)
    (items : List PlaylistItem) (i : String) (dv : DirectVideo) (it : PlaylistItem)
    (hpl : page.playlist = some (plRef, items))
    (_hdv : dv ∈ page.directVideos) (_hdvi : dv.dataVideoId = i)
    (hit : items.filter (fun x => x.dataId == i) = [it]) :
    dictLookup (get_brightcove_mapping page true) i
      = some (playlistEntry (scrapedAccount page) plRef it) ∧
    countKey (get_brightcove_mapping page true) i = 1 := by
  have hmap : get_brightcove_mapping page true
      = items.foldl
          (fun acc x => dictUpdate acc x.dataId (playlistEntry (scrapedAccount page) plRef x))
          (page.directVideos.foldl
            (fun acc v => dictUpdate acc v.dataVideoId (directEntry page v)) []) := by
    unfold get_brightcove_mapping
    rw [hpl]
    simp
  have hlook : dictLookup (get_brightcove_mapping page true) i
      = some (playlistEntry (scrapedAccount page) plRef it) := by
    rw [hmap]
    exact dictLookup_foldl_unique (fun x => x.dataId)
      (fun x => playlistEntry (scrapedAccount page) plRef x) items _ i it hit
  refine ⟨hlook, ?_⟩
  have hwf : WfDict (get_brightcove_mapping page true) := by
    rw [hmap]
    exact wfDict_foldl _ _ items _
      (wfDict_foldl (fun v => v.dataVideoId) (directEntry page) page.directVideos [] wfDict_nil)
  have hlow := dictLookup_some_countKey _ i _ hlook
  have hhigh := hwf i
  omega

/-- A concrete page for the C2 witness: one direct embed of id `v1`
and one playlist item with the same id. -/
def c2witPage : BCPage :=
  ⟨[⟨"a1", "p1", "v1", 0⟩], some "Auth", some (5, [⟨"v1", "T1", "pp"⟩])⟩

/-- Witness for the corrected C2 on a concrete page. -/
theorem claim2_get_brightcove_mapping_witness :
    dictLookup (get_brightcove_mapping c2witPage true) "v1"
      = some (playlistEntry (scrapedAccount c2witPage) 5 ⟨"v1", "T1", "pp"⟩) ∧
    countKey (get_brightcove_mapping c2witPage true) "v1" = 1 :=
  claim2_get_brightcove_mapping c2witPage 5 [⟨"v1", "T1", "pp"⟩] "v1"
    ⟨"a1", "p1", "v1", 0⟩ ⟨"v1", "T1", "pp"⟩ rfl (by decide) rfl (by decide)

/-- A concrete page refuting C2 as stated: the direct embed carries
attribution `"By Alice"` and element `0`. -/
def c2badPage : BCPage :=
  ⟨[⟨"acc1", "play1", "vid1", 0⟩], some "By Alice", some (7, [⟨"vid1", "Title", "pid2"⟩])⟩

/-- Counterexample for C2 as stated: on `c2badPage` the single merged
record for `vid1` is the playlist entry; its `author` is `none` and
its `original_el` is `none`, although the page's direct embed carried
attribution `"By Alice"` and element reference `0` — the direct
embed's attributes are not the ones preserved. -/
theorem claim2_get_brightcove_mapping_counterexample :
    dictLookup (get_brightcove_mapping c2badPage true) "vid1"
      = some { title := some "Title", append_to := some 7,
               url := brightcoveUrl "acc1" "pid2" "vid1" } ∧
    (dictLookup (get_brightcove_mapping c2badPage true) "vid1").map BCEntry.author
      = some none ∧
    (dictLookup (get_brightcove_mapping c2badPage true) "vid1").map BCEntry.original_el
      = some none ∧
    c2badPage.attribution = some "By Alice" ∧
    (c2badPage.directVideos.map DirectVideo.ref) = [0] := by
  exact ⟨by decide, by decide, by decide, by decide, by decide⟩

/-! ## Claim C1: the existing-bundle short-circuit -/

/-- Claim C1 (corrected): when the bundle zip for a slug already exists
on disk, `scrape_snack_page` performs exactly one page fetch — the
`read(slug)` at the top of the body, executed before the existence
check in order to gather the keyword tags — and then returns the
existing bundle's path without invoking the video downloader, logging
no error, for any remaining attempt budget. -/
theorem claim1_existing_bundle (env : ScrapeEnv) (slug : String) (attempts : Nat)
    (p : SnackPage) (hp : env.page = some p) (hb : env.bundleExists = true) :
    scrape_snack_page env slug attempts
      = (⟨1, [], []⟩, snackZipPath env slug, snackTags p) := by
  cases attempts with
  | zero => simp [scrape_snack_page, hp, hb]
  | succ n => simp [scrape_snack_page, hp, hb]

/-- A run whose bundle already exists on disk: the page is reachable
and the bundle build (which would download videos) would succeed. -/
def c1env : ScrapeEnv := ⟨"snacks", some ⟨none, none⟩, true, some ["v.mp4"]⟩

/-- Witness for the corrected C1 on a concrete environment. -/
theorem claim1_existing_bundle_witness :
    scrape_snack_page c1env "/snacks/drawing-board" 5
      = (⟨1, [], []⟩, snackZipPath c1env "/snacks/drawing-board", snackTags ⟨none, none⟩) :=
  claim1_existing_bundle c1env "/snacks/drawing-board" 5 ⟨none, none⟩ rfl rfl

/-- Counterexample for C1 as stated: with the bundle already on disk,
the run still performs one page fetch, not zero — the source page is
re-fetched even though no downloader call happens. -/
theorem claim1_existing_bundle_counterexample :
    (scrape_snack_page c1env "/snacks/drawing-board" 5).1.pageFetches = 1 ∧
    ¬ (scrape_snack_page c1env "/snacks/drawing-board" 5).1.pageFetches = 0 ∧
    (scrape_snack_page c1env "/snacks/drawing-board" 5).1.videoDownloads = [] := by
  exact ⟨by decide, by decide, by decide⟩

/-! ## Claim C3: exhausted retries -/

/-- A run whose page fetch raises on every attempt. -/
def c3env : ScrapeEnv := ⟨"snacks", none, false, none⟩

/-- Claim C3 (code bug): when every attempt of the retry budget
raises, `scrape_snack_page` does log an error — but it then falls
through to `return write_to_path, tags` and hands back the non-empty
zip path (after 6 tries: the initial call plus five retries), so the
caller's guard `if not write_to_path: continue` never fires and
`scrape_snack_subject` goes on to build a content node for a bundle
that was never produced, instead of skipping the leaf. -/
theorem claim3_exhausted_retries :
    scrape_snack_page c3env "/snacks/x" 5
      = (⟨6, [], ["Could not scrape /snacks/x"]⟩, "snacks/x.zip", []) ∧
    snack_subject_skips (scrape_snack_page c3env "/snacks/x" 5).2.1 = false ∧
    (scrape_snack_page c3env "/snacks/x" 5).2.1 ≠ "" := by
  exact ⟨by decide, by decide, by decide⟩

/-! ## Claim C5: same-site activity links -/

/-- Claim C5 (corrected): inside a paragraph or list item, an anchor is
replaced by bold plain text equal to its visible text — with no
hyperlink to its target remaining — exactly when its href contains the
literal substring `"exploratorium.edu/snacks/"` (and the zip does not
already contain the href).  A site-relative activity link such as
`"/snacks/foo"` does not satisfy this test and instead falls through
to the external-link branch, which appends the href in parentheses and
strips the anchor to plain (not bold) text. -/
theorem claim5_snack_link_bolded (z : Zipper) (videosOn : String → List String)
    (pre post : List Inline) (href text : String) (imgSrc : Option String)
    (hz : z.contains href = false)
    (hs : strHas href "exploratorium.edu/snacks/" = true)
    (hpre : anchorFree pre = true) (hpost : anchorFree post = true) :
    rewriteParagraph z videosOn (pre ++ [Inline.anchor href text imgSrc] ++ post)
      = (pre ++ [Inline.bold text] ++ post, []) ∧
    hasAnchorTo
      (rewriteParagraph z videosOn (pre ++ [Inline.anchor href text imgSrc] ++ post)).1
      href = false := by
  have hra : rewriteAnchor z videosOn href text imgSrc = ([Inline.bold text], [], []) := by
    unfold rewriteAnchor
    rw [if_neg (by simp [hz]), if_pos hs]
  have heq := rewriteParagraph_single z videosOn pre post href text imgSrc hpre hpost
  rw [hra] at heq
  simp only [List.append_nil] at heq
  refine ⟨heq, ?_⟩
  rw [heq]
  apply hasAnchorTo_of_anchorFree
  rw [anchorFree_append, anchorFree_append, hpre, hpost]
  rfl

/-- Witness for the corrected C5: an absolute activity link is bolded
and no hyperlink to it remains. -/
theorem claim5_snack_link_bolded_witness :
    rewriteParagraph zNever noVideos
      [Inline.anchor "https://www.exploratorium.edu/snacks/foo" "Exploratorium Snacks" none]
      = ([Inline.bold "Exploratorium Snacks"], []) ∧
    hasAnchorTo
      (rewriteParagraph zNever noVideos
        [Inline.anchor "https://www.exploratorium.edu/snacks/foo" "Exploratorium Snacks" none]).1
      "https://www.exploratorium.edu/snacks/foo" = false := by
  have h := claim5_snack_link_bolded zNever noVideos [] []
    "https://www.exploratorium.edu/snacks/foo" "Exploratorium Snacks" none
    (by decide) (by decide) rfl rfl
  simpa using h

/-- Counterexample for C5 as stated: the claim's own example — text
`"Exploratorium Snacks"`, href `"/snacks/foo"`, a same-site activity
link — is not bolded; it becomes plain text with the href appended in
parentheses. -/
theorem claim5_snack_link_bolded_counterexample :
    rewriteParagraph zNever noVideos
      [Inline.anchor "/snacks/foo" "Exploratorium Snacks" none]
      = ([Inline.text "Exploratorium Snacks (/snacks/foo) "], []) ∧
    rewriteParagraph zNever noVideos
      [Inline.anchor "/snacks/foo" "Exploratorium Snacks" none]
      ≠ ([Inline.bold "Exploratorium Snacks"], []) := by
  exact ⟨by decide, by decide⟩

/-! ## Claim C6: other external links -/

/-- Claim C6 (confirmed): an anchor in a paragraph or list item that
reaches the final dispatch branch (not already in the zip, no
activity-link or file-storage or same-site substring in its href, no
wrapped image, no image-extension suffix) and whose text and href do
not contain one another is replaced by the plain text
`text ++ " (" ++ href ++ ") "`, and no anchor element remains. -/
theorem claim6_external_link (z : Zipper) (videosOn : String → List String)
    (pre post : List Inline) (href text : String)
    (hz : z.contains href = false)
    (hb : strHas href "exploratorium.edu/snacks/" = false)
    (hd : strHas href "/sites/default/files/" = false)
    (he : strHas href "exploratorium.edu" = false)
    (hf : IMAGE_EXTENSIONS.any (fun e => pyEndsWith (pyLower href) e) = false)
    (h1 : strHas text href = false) (h2 : strHas href text = false)
    (hpre : anchorFree pre = true) (hpost : anchorFree post = true) :
    rewriteParagraph z videosOn (pre ++ [Inline.anchor href text none] ++ post)
      = (pre ++ [Inline.text (text ++ " (" ++ href ++ ") ")] ++ post, []) ∧
    hasAnchorTo
      (rewriteParagraph z videosOn (pre ++ [Inline.anchor href text none] ++ post)).1
      href = false := by
  have hra : rewriteAnchor z videosOn href text none
      = ([Inline.text (text ++ " (" ++ href ++ ") ")], [], []) := by
    unfold rewriteAnchor
    rw [if_neg (by simp [hz]), if_neg (by simp [hb])]
    simp only
    rw [if_neg (by simp [hd]), if_neg (by simp [he]), if_neg (by simp [hf]),
      if_pos (by simp [h1, h2])]
  have heq := rewriteParagraph_single z videosOn pre post href text none hpre hpost
  rw [hra] at heq
  simp only [List.append_nil] at heq
  refine ⟨heq, ?_⟩
  rw [heq]
  apply hasAnchorTo_of_anchorFree
  rw [anchorFree_append, anchorFree_append, hpre, hpost]
  rfl

/-- Witness for C6: the spec's example, text `"Read more"` with href
`"http://example.org/x"`. -/
theorem claim6_external_link_witness :
    rewriteParagraph zNever noVideos
      [Inline.anchor "http://example.org/x" "Read more" none]
      = ([Inline.text "Read more (http://example.org/x) "], []) ∧
    hasAnchorTo
      (rewriteParagraph zNever noVideos
        [Inline.anchor "http://example.org/x" "Read more" none]).1
      "http://example.org/x" = false := by
  have h := claim6_external_link zNever noVideos [] [] "http://example.org/x" "Read more"
    (by decide) (by decide) (by decide) (by decide) (by decide) (by decide) (by decide) rfl rfl
  simpa using h

/-! ## Claim C4: unrecognized downloadable-file links -/

/-- Claim C4 (corrected): for a downloadable-file link (href containing
`"/sites/default/files/"`) whose target is neither a pdf nor a
recognized image type, the rewriting step logs the
`"Unknown file type found at ..."` error and processing continues (the
rest of the paragraph is still rewritten and the leaf is still
produced) — but the link is not left untouched: the code assigns the
error-signal return value `""` of `generate_download_page` to the
link's href, so the anchor's href becomes the empty string. -/
theorem claim4_unknown_file_type (z : Zipper) (videosOn : String → List String)
    (pre post : List Inline) (href text : String)
    (hz : z.contains href = false)
    (hb : strHas href "exploratorium.edu/snacks/" = false)
    (hd : strHas href "/sites/default/files/" = true)
    (hpdf : pyEndsWith (takeBeforeQuery href) "pdf" = false)
    (himg : IMAGE_EXTENSIONS.any (fun e => pyEndsWith (pyLower (takeBeforeQuery href)) e) = false)
    (hpre : anchorFree pre = true) (hpost : anchorFree post = true) :
    rewriteParagraph z videosOn (pre ++ [Inline.anchor href text none] ++ post)
      = (pre ++ [Inline.anchor "" text none] ++ post,
         ["Unknown file type found at " ++ takeBeforeQuery href]) := by
  have hgen : generate_download_page z href
      = ("", none, ["Unknown file type found at " ++ takeBeforeQuery href]) := by
    unfold generate_download_page
    rw [if_neg (by simp [hpdf]), if_neg (by simp [himg])]
  have hra : rewriteAnchor z videosOn href text none
      = ([Inline.anchor "" text none], [],
         ["Unknown file type found at " ++ takeBeforeQuery href]) := by
    unfold rewriteAnchor
    rw [if_neg (by simp [hz]), if_neg (by simp [hb])]
    simp only
    rw [if_pos hd, hgen]
  have heq := rewriteParagraph_single z videosOn pre post href text none hpre hpost
  rw [hra] at heq
  simpa using heq

/-- Witness for the corrected C4: a `.docx` worksheet link. -/
theorem claim4_unknown_file_type_witness :
    rewriteParagraph zNever noVideos
      [Inline.anchor "/sites/default/files/worksheet.docx" "Worksheet" none]
      = ([Inline.anchor "" "Worksheet" none],
         ["Unknown file type found at " ++
           takeBeforeQuery "/sites/default/files/worksheet.docx"]) := by
  have h := claim4_unknown_file_type zNever noVideos [] []
    "/sites/default/files/worksheet.docx" "Worksheet"
    (by decide) (by decide) (by decide) (by decide) (by decide) rfl rfl
  simpa using h

/-- Counterexample for C4 as stated: after the step, the `.docx` link's
href is the empty string, not the original
`"/sites/default/files/worksheet.docx"` — the link is touched. -/
theorem claim4_unknown_file_type_counterexample :
    rewriteParagraph zNever noVideos
      [Inline.anchor "/sites/default/files/worksheet.docx" "Worksheet" none]
      = ([Inline.anchor "" "Worksheet" none],
         ["Unknown file type found at /sites/default/files/worksheet.docx"]) ∧
    (rewriteParagraph zNever noVideos
      [Inline.anchor "/sites/default/files/worksheet.docx" "Worksheet" none]).1
      ≠ [Inline.anchor "/sites/default/files/worksheet.docx" "Worksheet" none] := by
  exact ⟨by decide, by decide⟩

end Exploratorium
